import Mathlib

/-!
# Verification of the bioregistry API core

A shallow embedding of the overlap computation, format negotiation,
reference lookup and JSON-LD context generation from
`src/bioregistry/app/api.py`, and of the OBO Foundry activity-status
parser from `src/bioregistry/external/obofoundry.py`, together with
theorems settling the specification claims about them.

Python dictionaries are modelled as association lists with
insertion-order preserving assignment (`dictAssign`), Python sets as
duplicate-free lists with insertion-order preserving `setAdd`, and
Python string truthiness (`if s:` is false for both `None` and `""`)
by the predicate `truthy` on `Option String`.
-/

namespace Bioregistry

/-- Python truthiness of an `Optional[str]`: `None` and `""` are falsy. -/
def truthy : Option String → Bool
  | none => false
  | some s => !(s == "")

/-- Lookup in an association list, as Python `dict.get`. -/
def alookup : List (String × String) → String → Option String
  | [], _ => none
  | p :: rest, k => if p.1 = k then some p.2 else alookup rest k

/-- Python `d[k] = v`: replace the value in place if the key is present,
otherwise append the new pair (insertion order preserved). -/
def dictAssign (d : List (String × String)) (k v : String) : List (String × String) :=
  if (alookup d k).isSome then
    d.map (fun p => if p.1 = k then (k, v) else p)
  else
    d ++ [(k, v)]

/-- Python `s.add(x)` on a set modelled as a duplicate-free list. -/
def setAdd (s : List String) (x : String) : List String :=
  if x ∈ s then s else s ++ [x]

/-- Fold a list of pairs into a Python dict. -/
def pyDict (l : List (String × String)) : List (String × String) :=
  l.foldl (fun d p => dictAssign d p.1 p.2) []

/-- Fold a list of elements into a Python set. -/
def pySet (l : List String) : List String :=
  l.foldl setAdd []

/-- A canonical registry record (`Resource`).  `prefix_` is the canonical
prefix, `mappings` the cross-references returned by `get_mappings` as an
association list from external registry key to external local identifier,
and `is_standardizable_identifier` the pattern-validation method, which is
implemented outside the sources under study and is kept abstract. -/
structure Resource where
  prefix_ : String
  mappings : List (String × String)
  is_standardizable_identifier : String → Bool

/-- The method `resource.get_mappings()`. -/
def Resource.get_mappings (r : Resource) : List (String × String) :=
  r.mappings

/-- The process-wide manager snapshot.  `registry` is the list of canonical
records in iteration order, `metaregistry` the keys of the known external
registries.  The remaining fields are the manager methods called by the
routes under study but implemented outside these sources; they are kept
abstract as opaque function fields. -/
structure Manager where
  registry : List Resource
  metaregistry : List String
  get_resource : String → Option Resource
  get_providers : String → String → List (String × String)
  get_registry_map : String → List (String × String)
  normalize_prefix : String → Option String
  get_uri_prefix : String → Option String

/-- The error value returned by `get_metaresource_external_mappings` for an
unknown registry key (the `{"bad source prefix": ...}, 400` early returns). -/
inductive OverlapError where
  | badSource ( metaprefix : String)
  | badTarget (target : String)
deriving DecidableEq, Repr

/-- The `meta` part of a `MappingResponse`. -/
structure MappingResponseMeta where
  len_overlap : Nat
  source : String
  target : String
  len_source_only : Nat
  len_target_only : Nat
  source_only : List String
  target_only : List String
deriving DecidableEq, Repr

/-- A response describing the overlap between two registries and their mapping. -/
structure MappingResponse where
  meta : MappingResponseMeta
  mappings : List (String × String)
deriving DecidableEq, Repr

/-- The body of the `for resource in manager.registry.values()` loop of
`get_metaresource_external_mappings`: one record updates the triple
`(rv, source_only, target_only)` according to the truthiness of its local
identifiers under the source and target keys. -/
def overlapStep ( metaprefix target : String)
    (acc : List (String × String) × List String × List String)
    ( resource : Resource) : List (String × String) × List String × List String :=
  let mappings := resource.get_mappings
  let mp1 := alookup mappings metaprefix
  let mp2 := alookup mappings target
  if truthy mp1 && truthy mp2 then
    (dictAssign acc.1 (mp1.getD "") (mp2.getD ""), acc.2.1, acc.2.2)
  else if truthy mp1 && !truthy mp2 then
    (acc.1, setAdd acc.2.1 (mp1.getD ""), acc.2.2)
  else if !truthy mp1 && truthy mp2 then
    (acc.1, acc.2.1, setAdd acc.2.2 (mp2.getD ""))
  else
    acc

/-- Route `GET /metaregistry/{metaprefix}/mapping/{target}`
(`get_metaresource_external_mappings`): check both keys against the
metaregistry, then a single pass over all canonical records building the
matched dict and the source-only / target-only sets, and finally the
response with counts and sorted lists. -/
def get_metaresource_external_mappings (m : Manager)
    ( metaprefix target : String) : Except OverlapError MappingResponse :=
  if metaprefix ∉ m.metaregistry then
    Except.error (OverlapError.badSource metaprefix)
  else if target ∉ m.metaregistry then
    Except.error (OverlapError.badTarget target)
  else
    let acc := m.registry.foldl (overlapStep metaprefix target) ([], [], [])
    let rv := acc.1
    let source_only := acc.2.1
    let target_only := acc.2.2
    Except.ok
      { meta :=
          { len_overlap := rv.length
            source := metaprefix
            target := target
            len_source_only := source_only.length
            len_target_only := target_only.length
            source_only := List.insertionSort (· ≤ ·) source_only
            target_only := List.insertionSort (· ≤ ·) target_only }
        mappings := rv }

/-- Route `GET /metaregistry/{metaprefix}/mappings.json` (`get_metaresource_mappings`):
the key is checked against the metaregistry (raising `HTTPException(404)`
for an unknown one) before delegating to `manager.get_registry_map`. -/
def get_metaresource_mappings (m : Manager) ( metaprefix : String) :
    Except String (List (String × String)) :=
  if metaprefix ∉ m.metaregistry then
    Except.error ("Invalid metaprefix: " ++ metaprefix)
  else
    Except.ok (m.get_registry_map metaprefix)

/-- The matched pairs of the overlap, described as a partition of the
record list: a record contributes `(source_local, target_local)` exactly
when its local identifiers under both keys are present and non-empty. -/
def matchedPairs (registry : List Resource) (a b : String) : List (String × String) :=
  registry.filterMap (fun r =>
    let mp1 := alookup r.get_mappings a
    let mp2 := alookup r.get_mappings b
    if truthy mp1 && truthy mp2 then some (mp1.getD "", mp2.getD "") else none)

/-- The source-only identifiers of the overlap, described as a partition of
the record list: a record contributes its source local identifier exactly
when it is present and non-empty while the target one is not. -/
def sourceOnlyIds (registry : List Resource) (a b : String) : List String :=
  registry.filterMap (fun r =>
    let mp1 := alookup r.get_mappings a
    let mp2 := alookup r.get_mappings b
    if truthy mp1 && !truthy mp2 then some (mp1.getD "") else none)

/-- The target-only identifiers of the overlap, symmetric to `sourceOnlyIds`. -/
def targetOnlyIds (registry : List Resource) (a b : String) : List String :=
  registry.filterMap (fun r =>
    let mp1 := alookup r.get_mappings a
    let mp2 := alookup r.get_mappings b
    if !truthy mp1 && truthy mp2 then some (mp2.getD "") else none)

/-- The records exposing a non-empty local identifier under key `a`, listed
by that identifier. -/
def truthyLocals (registry : List Resource) (a : String) : List String :=
  registry.filterMap (fun r =>
    let mp1 := alookup r.get_mappings a
    if truthy mp1 then some (mp1.getD "") else none)

/-- The overlap response described as a partition: the matched dict is the
Python dict of `matchedPairs`, the two lists are the sorted Python sets of
`sourceOnlyIds` and `targetOnlyIds`, and the counts are their sizes. -/
def overlapResponse (m : Manager) (a b : String) : MappingResponse :=
  { meta :=
      { len_overlap := (pyDict (matchedPairs m.registry a b)).length
        source := a
        target := b
        len_source_only := (pySet (sourceOnlyIds m.registry a b)).length
        len_target_only := (pySet (targetOnlyIds m.registry a b)).length
        source_only := List.insertionSort (· ≤ ·) (pySet (sourceOnlyIds m.registry a b))
        target_only := List.insertionSort (· ≤ ·) (pySet (targetOnlyIds m.registry a b)) }
    mappings := pyDict (matchedPairs m.registry a b) }

/-- An OBO Foundry registry record, reduced to the field read by
`_parse_activity_status`. -/
structure OboRecord where
  activity_status : String
deriving DecidableEq, Repr

/-- The function `_parse_activity_status` from `obofoundry.py`: `"inactive"` and
`"orphaned"` map to `True`, `"active"` to `False`, anything else raises
`ValueError`. -/
def parse_activity_status (record : OboRecord) : Except String Bool :=
  let status := record.activity_status
  if status = "inactive" then
    Except.ok true
  else if status = "active" then
    Except.ok false
  else if status = "orphaned" then
    Except.ok true
  else
    Except.error ("unexpected activity value: " ++ status)

/-- The three error kinds of `get_reference`: unknown prefix, invalid
identifier for a known prefix, and no providers available for a valid
identifier (the three distinct `HTTPException` raises of the route). -/
inductive ReferenceError where
  | prefixNotFound (p : String)
  | identifierInvalid (p i : String)
  | noProviders (p i : String)
deriving DecidableEq, Repr

/-- A reference to a prefix and local unique identifier. -/
structure Reference where
  prefix_ : String
  identifier : String
deriving DecidableEq, Repr

/-- A response for looking up a reference. -/
structure IdentifierResponse where
  query : Reference
  providers : List (String × String)
deriving DecidableEq, Repr

/-- Route `GET /reference/{prefix}:{identifier}` (`get_reference`): resolve the
prefix, validate the identifier, collect providers, failing with a distinct
error at each stage. -/
def get_reference (m : Manager) ( prefix_ identifier : String) :
    Except ReferenceError IdentifierResponse :=
  match m.get_resource prefix_ with
  | none => Except.error (ReferenceError.prefixNotFound prefix_)
  | some resource =>
    if !( resource.is_standardizable_identifier identifier) then
      Except.error (ReferenceError.identifierInvalid prefix_ identifier)
    else
      let providers := m.get_providers resource.prefix_ identifier
      if providers.isEmpty then
        Except.error (ReferenceError.noProviders prefix_ identifier)
      else
        Except.ok
          { query := { prefix_ := prefix_, identifier := identifier }
            providers := providers }

/-- The function `_handle_formats`: content negotiation between the `Accept` header and
the `format` query parameter.  `format_map` stands for the `FORMAT_MAP`
constant, which lives outside the sources under study.  Python truthiness
applies to both inputs: `None` and `""` are falsy. -/
def handle_formats (format_map : List (String × String))
    (accept0 fmt0 : Option String) : Except String String :=
  let step1 : Except String (Option String) :=
    if truthy fmt0 then
      match alookup format_map (fmt0.getD "") with
      | none => Except.error ("bad query parameter format=" ++ fmt0.getD "")
      | some v => Except.ok (some v)
    else
      Except.ok fmt0
  match step1 with
  | Except.error e => Except.error e
  | Except.ok fmt =>
    let accept := if accept0 = some "*/*" then none else accept0
    if truthy accept && truthy fmt then
      if accept.getD "" ≠ fmt.getD "" then
        Except.error ("Mismatch between Accept header (" ++ accept.getD ""
          ++ ") and format parameter (" ++ fmt.getD "" ++ ")")
      else
        Except.ok (accept.getD "")
    else if truthy accept then
      Except.ok (accept.getD "")
    else if truthy fmt then
      Except.ok (fmt.getD "")
    else
      Except.ok "application/json"

/-- The explicit negotiation function `negotiate(accept_header, format_param)
-> ContentType | NegotiationError` described by the spec, amended to treat an
empty accept header or an empty format parameter as absent: absence
normalisation first, then an unknown (non-empty) format parameter is an
error, a conflict between a given accept header and the mapped format
parameter is an error, and otherwise accept header, then mapped format
parameter, then `application/json`. -/
def negotiate (format_map : List (String × String))
    (accept fmt : Option String) : Except String String :=
  let accept2 : Option String :=
    match accept with
    | none => none
    | some s => if s = "" ∨ s = "*/*" then none else some s
  match fmt with
  | some f =>
    if f = "" then
      match accept2 with
      | some a => Except.ok a
      | none => Except.ok "application/json"
    else
      match alookup format_map f with
      | none => Except.error ("bad query parameter format=" ++ f)
      | some mapped =>
        match accept2 with
        | some a =>
          if a ≠ mapped then
            Except.error ("Mismatch between Accept header (" ++ a
              ++ ") and format parameter (" ++ mapped ++ ")")
          else
            Except.ok a
        | none => Except.ok mapped
  | none =>
    match accept2 with
    | some a => Except.ok a
    | none => Except.ok "application/json"

/-- The body of the inner loop of `generate_context_json_ld`: normalise one
comma-separated part, skip it silently if it cannot be normalised or has no
URI prefix, otherwise assign it into the context mapping. -/
def addPrefixEntry (m : Manager) ( prefix_map : List (String × String))
    (part : String) : List (String × String) :=
  match m.normalize_prefix part.trim with
  | none => prefix_map
  | some p =>
    match m.get_uri_prefix p with
    | none => prefix_map
    | some uri => dictAssign prefix_map p uri

/-- Route `GET /context.jsonld` (`generate_context_json_ld`): the `@context`
mapping built from the comma-separated prefix query values. -/
def generate_context_json_ld (m : Manager) (values : List String) :
    List (String × String) :=
  values.foldl (fun prefix_map value =>
    (value.splitOn ",").foldl (addPrefixEntry m) prefix_map) []

/-! ## Concrete sample data used by witnesses and counterexamples -/

/-- A manager with empty data and vacuous collaborators. -/
def defaultManager : Manager :=
  { registry := []
    metaregistry := []
    get_resource := fun _ => none
    get_providers := fun _ _ => []
    get_registry_map := fun _ => []
    normalize_prefix := fun _ => none
    get_uri_prefix := fun _ => none }

/-- A record whose local identifiers under `a` and `b` are present but empty. -/
def emptyIdRecord : Resource :=
  { prefix_ := "p"
    mappings := [("a", ""), ("b", "")]
    is_standardizable_identifier := fun _ => false }

/-- A manager holding only `emptyIdRecord`. -/
def M1 : Manager :=
  { defaultManager with registry := [emptyIdRecord], metaregistry := ["a", "b"] }

/-- First of two records sharing the local identifier `s` under key `a`. -/
def dupRecord1 : Resource :=
  { prefix_ := "p1"
    mappings := [("a", "s"), ("b", "t1")]
    is_standardizable_identifier := fun _ => false }

/-- Second of two records sharing the local identifier `s` under key `a`. -/
def dupRecord2 : Resource :=
  { prefix_ := "p2"
    mappings := [("a", "s"), ("b", "t2")]
    is_standardizable_identifier := fun _ => false }

/-- A manager whose two records share one local identifier under key `a`. -/
def MC3 : Manager :=
  { defaultManager with registry := [dupRecord1, dupRecord2], metaregistry := ["a", "b"] }

/-- A record mapped under both sample keys. -/
def wRecordBoth : Resource :=
  { prefix_ := "x"
    mappings := [("a", "s1"), ("b", "t1")]
    is_standardizable_identifier := fun _ => false }

/-- A record mapped only under key `a`. -/
def wRecordSource : Resource :=
  { prefix_ := "y"
    mappings := [("a", "s2")]
    is_standardizable_identifier := fun _ => false }

/-- A record mapped only under key `b`. -/
def wRecordTarget : Resource :=
  { prefix_ := "z"
    mappings := [("b", "t3")]
    is_standardizable_identifier := fun _ => false }

/-- A well-behaved manager with matched, source-only and target-only records. -/
def MW : Manager :=
  { defaultManager with
    registry := [wRecordBoth, wRecordSource, wRecordTarget]
    metaregistry := ["a", "b", "n2t"] }

/-- A sample resource accepting exactly the identifier `"123"`. -/
def goRecord : Resource :=
  { prefix_ := "go"
    mappings := []
    is_standardizable_identifier := fun i => i == "123" }

/-- A manager resolving the prefix `"go"` with one provider for `"123"`. -/
def MR : Manager :=
  { defaultManager with
    get_resource := fun s => if s == "go" then some goRecord else none
    get_providers := fun p i =>
      if p == "go" && i == "123" then
        [("obofoundry", "http://purl.obolibrary.org/obo/GO_123")]
      else [] }

/-- A sample `FORMAT_MAP`. -/
def FM7 : List (String × String) :=
  [("json", "application/json"), ("yaml", "application/yaml")]

/-- A manager normalising `"go"`/`"GO"` with a URI prefix for `"go"`. -/
def M9 : Manager :=
  { defaultManager with
    normalize_prefix := fun s => if s == "go" || s == "GO" then some "go" else none
    get_uri_prefix := fun p =>
      if p == "go" then some "http://purl.obolibrary.org/obo/GO_" else none }

/-! ## Association list and set lemmas -/

theorem alookup_append (d1 d2 : List (String × String)) (k : String) :
    alookup (d1 ++ d2) k =
      if (alookup d1 k).isSome then alookup d1 k else alookup d2 k := by
  induction d1 with
  | nil => simp [alookup]
  | cons p d1 ih =>
    by_cases hp : p.1 = k
    · simp [alookup, hp]
    · simp [alookup, hp, ih]

theorem alookup_map_ne (d : List (String × String)) (k v k' : String) (h : k' ≠ k) :
    alookup (d.map (fun p => if p.1 = k then (k, v) else p)) k' = alookup d k' := by
  induction d with
  | nil => simp [alookup]
  | cons p d ih =>
    by_cases hp : p.1 = k
    · have hkk : ¬(k = k') := fun hh => h hh.symm
      simp [alookup, hp, hkk, ih]
    · by_cases hpk : p.1 = k'
      · simp [alookup, hp, hpk, h]
      · simp [alookup, hp, hpk, ih]

theorem alookup_map_assign (d : List (String × String)) (k v : String)
    (hk : (alookup d k).isSome = true) (k' : String) :
    alookup (d.map (fun p => if p.1 = k then (k, v) else p)) k' =
      if k' = k then some v else alookup d k' := by
  induction d with
  | nil => simp [alookup] at hk
  | cons p d ih =>
    by_cases hp : p.1 = k
    · by_cases hk' : k' = k
      · subst hk'
        simp [alookup, hp]
      · have hkk : ¬(k = k') := fun hh => hk' hh.symm
        have hpk : ¬(p.1 = k') := hp ▸ hkk
        simp [alookup, hp, hkk, hk', hpk, alookup_map_ne d k v k' hk']
    · have hk2 : (alookup d k).isSome = true := by
        simpa [alookup, hp] using hk
      by_cases hpk : p.1 = k'
      · have hk' : ¬(k' = k) := fun hh => hp (hpk.trans hh)
        simp [alookup, hpk, hp, hk']
      · simp [alookup, hpk, hp, ih hk2]

theorem alookup_dictAssign (d : List (String × String)) (k v k' : String) :
    alookup (dictAssign d k v) k' = if k' = k then some v else alookup d k' := by
  unfold dictAssign
  by_cases hs : (alookup d k).isSome = true
  · simpa [hs] using alookup_map_assign d k v hs k'
  · have hnone : alookup d k = none := by
      cases h2 : alookup d k with
      | none => rfl
      | some w => rw [h2] at hs; simp at hs
    rw [if_neg (by simp [hs]), alookup_append]
    by_cases hk' : k' = k
    · subst hk'
      simp [hnone, alookup]
    · have hkk : ¬(k = k') := fun hh => hk' hh.symm
      cases h2 : alookup d k' with
      | none => simp [h2, alookup, hkk, hk']
      | some w => simp [h2, alookup, hkk, hk']

theorem mem_dictAssign {x : String × String} {d : List (String × String)}
    {k v : String} (h : x ∈ dictAssign d k v) : x ∈ d ∨ x = (k, v) := by
  unfold dictAssign at h
  by_cases hs : (alookup d k).isSome = true
  · rw [if_pos hs] at h
    rcases List.mem_map.1 h with ⟨y, hy, hxy⟩
    by_cases hyk : y.1 = k
    · right
      rw [if_pos hyk] at hxy
      exact hxy.symm
    · left
      rw [if_neg hyk] at hxy
      exact hxy ▸ hy
  · rw [if_neg (by simp [hs])] at h
    rcases List.mem_append.1 h with h1 | h1
    · exact Or.inl h1
    · exact Or.inr (List.mem_singleton.1 h1)

theorem mem_foldl_dictAssign {x : String × String} (l : List (String × String)) :
    ∀ d, x ∈ l.foldl (fun d p => dictAssign d p.1 p.2) d → x ∈ d ∨ x ∈ l := by
  induction l with
  | nil => intro d h; exact Or.inl h
  | cons p l ih =>
    intro d h
    rcases ih (dictAssign d p.1 p.2) h with h1 | h1
    · rcases mem_dictAssign h1 with h2 | h2
      · exact Or.inl h2
      · exact Or.inr (by simp [h2])
    · exact Or.inr (List.mem_cons_of_mem _ h1)

theorem mem_pyDict {x : String × String} {l : List (String × String)}
    (h : x ∈ pyDict l) : x ∈ l := by
  rcases mem_foldl_dictAssign l [] h with h1 | h1
  · simp at h1
  · exact h1

theorem foldl_dictAssign_of_nodup (l : List (String × String)) :
    ∀ d, (∀ p ∈ l, alookup d p.1 = none) → ((l.map Prod.fst).Nodup) →
      l.foldl (fun d p => dictAssign d p.1 p.2) d = d ++ l := by
  induction l with
  | nil => intro d _ _; simp
  | cons p l ih =>
    intro d hd hn
    have h1 : alookup d p.1 = none := hd p (List.mem_cons_self p l)
    have hstep : dictAssign d p.1 p.2 = d ++ [(p.1, p.2)] := by
      unfold dictAssign
      rw [if_neg (by simp [h1])]
    have hn2 : (l.map Prod.fst).Nodup := (List.nodup_cons.1 (by simpa using hn)).2
    have hpl : p.1 ∉ l.map Prod.fst := (List.nodup_cons.1 (by simpa using hn)).1
    have hd2 : ∀ q ∈ l, alookup (d ++ [(p.1, p.2)]) q.1 = none := by
      intro q hq
      rw [alookup_append, hd q (List.mem_cons_of_mem _ hq)]
      have hne : ¬(p.1 = q.1) := by
        intro hh
        exact hpl (hh ▸ List.mem_map_of_mem Prod.fst hq)
      simp [alookup, hne]
    calc (p :: l).foldl (fun d p => dictAssign d p.1 p.2) d
        = l.foldl (fun d p => dictAssign d p.1 p.2) (d ++ [(p.1, p.2)]) := by
          simp [hstep]
      _ = (d ++ [(p.1, p.2)]) ++ l := ih _ hd2 hn2
      _ = d ++ (p :: l) := by simp

theorem pyDict_eq_self (l : List (String × String))
    (h : (l.map Prod.fst).Nodup) : pyDict l = l := by
  have := foldl_dictAssign_of_nodup l [] (by intro p _; rfl) h
  simpa [pyDict] using this

theorem foldl_setAdd_of_nodup (l : List String) :
    ∀ s, (∀ x ∈ l, x ∉ s) → l.Nodup → l.foldl setAdd s = s ++ l := by
  induction l with
  | nil => intro s _ _; simp
  | cons x l ih =>
    intro s hs hn
    have hstep : setAdd s x = s ++ [x] := by
      unfold setAdd
      rw [if_neg (hs x (List.mem_cons_self x l))]
    have hn2 := (List.nodup_cons.1 hn).2
    have hxl := (List.nodup_cons.1 hn).1
    have hs2 : ∀ y ∈ l, y ∉ s ++ [x] := by
      intro y hy hmem
      rcases List.mem_append.1 hmem with h1 | h1
      · exact hs y (List.mem_cons_of_mem _ hy) h1
      · exact hxl ((List.mem_singleton.1 h1) ▸ hy)
    calc (x :: l).foldl setAdd s
        = l.foldl setAdd (s ++ [x]) := by simp [hstep]
      _ = (s ++ [x]) ++ l := ih _ hs2 hn2
      _ = s ++ (x :: l) := by simp

theorem pySet_eq_self (l : List String) (h : l.Nodup) : pySet l = l := by
  have := foldl_setAdd_of_nodup l [] (by intro x _ hx; simp at hx) h
  simpa [pySet] using this

theorem nodup_setAdd {s : List String} (h : s.Nodup) (x : String) :
    (setAdd s x).Nodup := by
  unfold setAdd
  by_cases hx : x ∈ s
  · simpa [hx] using h
  · simpa [hx] using List.Nodup.append h (List.nodup_singleton x)
      (by simpa [List.disjoint_singleton] using hx)

theorem nodup_foldl_setAdd (l : List String) :
    ∀ s, s.Nodup → (l.foldl setAdd s).Nodup := by
  induction l with
  | nil => intro s hs; exact hs
  | cons x l ih => intro s hs; exact ih _ (nodup_setAdd hs x)

theorem nodup_pySet (l : List String) : (pySet l).Nodup :=
  nodup_foldl_setAdd l [] List.nodup_nil

/-! ## The overlap pass as a partition of the record list -/

theorem foldl_overlapStep (a b : String) (registry : List Resource) :
    ∀ d s1 s2, registry.foldl (overlapStep a b) (d, s1, s2) =
      ((matchedPairs registry a b).foldl (fun d p => dictAssign d p.1 p.2) d,
       (sourceOnlyIds registry a b).foldl setAdd s1,
       (targetOnlyIds registry a b).foldl setAdd s2) := by
  induction registry with
  | nil =>
    intro d s1 s2
    simp [matchedPairs, sourceOnlyIds, targetOnlyIds]
  | cons r rest ih =>
    intro d s1 s2
    cases h1 : truthy (alookup r.get_mappings a) <;>
      cases h2 : truthy (alookup r.get_mappings b) <;>
        simp [overlapStep, matchedPairs, sourceOnlyIds, targetOnlyIds,
          List.filterMap_cons, h1, h2, ih]

theorem overlap_ok (m : Manager) (a b : String)
    (ha : a ∈ m.metaregistry) (hb : b ∈ m.metaregistry) :
    get_metaresource_external_mappings m a b = Except.ok (overlapResponse m a b) := by
  unfold get_metaresource_external_mappings overlapResponse
  rw [if_neg (by simp [ha]), if_neg (by simp [hb])]
  simp [foldl_overlapStep a b m.registry [] [] [], pyDict, pySet]

theorem overlap_mem_of_ok {m : Manager} {a b : String} {r : MappingResponse}
    (h : get_metaresource_external_mappings m a b = Except.ok r) :
    a ∈ m.metaregistry ∧ b ∈ m.metaregistry := by
  unfold get_metaresource_external_mappings at h
  by_cases ha : a ∈ m.metaregistry
  · by_cases hb : b ∈ m.metaregistry
    · exact ⟨ha, hb⟩
    · rw [if_neg (by simp [ha]), if_pos (by simp [hb])] at h
      exact absurd h (by simp)
  · rw [if_pos (by simp [ha])] at h
    exact absurd h (by simp)

theorem matchedPairs_swap (registry : List Resource) (a b : String) :
    matchedPairs registry b a = (matchedPairs registry a b).map Prod.swap := by
  induction registry with
  | nil => simp [matchedPairs]
  | cons r rest ih =>
    simp only [matchedPairs] at ih ⊢
    cases h1 : truthy (alookup r.get_mappings a) <;>
      cases h2 : truthy (alookup r.get_mappings b) <;>
        simp_all [List.filterMap_cons]

theorem sourceOnlyIds_eq_targetOnlyIds_swap (registry : List Resource) (a b : String) :
    sourceOnlyIds registry a b = targetOnlyIds registry b a := by
  induction registry with
  | nil => simp [sourceOnlyIds, targetOnlyIds]
  | cons r rest ih =>
    simp only [sourceOnlyIds, targetOnlyIds] at ih ⊢
    cases h1 : truthy (alookup r.get_mappings a) <;>
      cases h2 : truthy (alookup r.get_mappings b) <;>
        simp_all [List.filterMap_cons]

theorem matchedPairs_self (registry : List Resource) (a : String) :
    matchedPairs registry a a = (truthyLocals registry a).map (fun s => (s, s)) := by
  induction registry with
  | nil => simp [matchedPairs, truthyLocals]
  | cons r rest ih =>
    simp only [matchedPairs, truthyLocals] at ih ⊢
    cases h1 : truthy (alookup r.get_mappings a) <;>
      simp_all [List.filterMap_cons]

theorem sourceOnlyIds_self (registry : List Resource) (a : String) :
    sourceOnlyIds registry a a = [] := by
  induction registry with
  | nil => simp [sourceOnlyIds]
  | cons r rest ih =>
    simp only [sourceOnlyIds] at ih ⊢
    cases h1 : truthy (alookup r.get_mappings a) <;>
      simp_all [List.filterMap_cons]

theorem targetOnlyIds_self (registry : List Resource) (a : String) :
    targetOnlyIds registry a a = [] := by
  induction registry with
  | nil => simp [targetOnlyIds]
  | cons r rest ih =>
    simp only [targetOnlyIds] at ih ⊢
    cases h1 : truthy (alookup r.get_mappings a) <;>
      simp_all [List.filterMap_cons]

theorem matchedPairs_fst_sublist (registry : List Resource) (a b : String) :
    List.Sublist ((matchedPairs registry a b).map Prod.fst) (truthyLocals registry a) := by
  induction registry with
  | nil => simp [matchedPairs, truthyLocals]
  | cons r rest ih =>
    simp only [matchedPairs, truthyLocals] at ih ⊢
    cases h1 : truthy (alookup r.get_mappings a) <;>
      cases h2 : truthy (alookup r.get_mappings b) <;>
        simp [List.filterMap_cons, h1, h2] at ih ⊢ <;>
          first
            | exact ih
            | exact List.Sublist.cons _ ih
            | exact List.Sublist.cons₂ _ ih

theorem sourceOnlyIds_sublist (registry : List Resource) (a b : String) :
    List.Sublist (sourceOnlyIds registry a b) (truthyLocals registry a) := by
  induction registry with
  | nil => simp [sourceOnlyIds, truthyLocals]
  | cons r rest ih =>
    simp only [sourceOnlyIds, truthyLocals] at ih ⊢
    cases h1 : truthy (alookup r.get_mappings a) <;>
      cases h2 : truthy (alookup r.get_mappings b) <;>
        simp [List.filterMap_cons, h1, h2] at ih ⊢ <;>
          first
            | exact ih
            | exact List.Sublist.cons _ ih
            | exact List.Sublist.cons₂ _ ih

theorem length_partition (registry : List Resource) (a b : String) :
    (matchedPairs registry a b).length + (sourceOnlyIds registry a b).length =
      (truthyLocals registry a).length := by
  induction registry with
  | nil => simp [matchedPairs, sourceOnlyIds, truthyLocals]
  | cons r rest ih =>
    simp only [matchedPairs, sourceOnlyIds, truthyLocals] at ih ⊢
    cases h1 : truthy (alookup r.get_mappings a) <;>
      cases h2 : truthy (alookup r.get_mappings b) <;>
        simp [List.filterMap_cons, h1, h2] at ih ⊢ <;>
          omega

theorem mem_of_alookup {d : List (String × String)} {k v : String}
    (h : alookup d k = some v) : (k, v) ∈ d := by
  induction d with
  | nil => simp [alookup] at h
  | cons p d ih =>
    obtain ⟨x, y⟩ := p
    by_cases hp : x = k
    · simp only [alookup, hp, if_pos, Option.some.injEq] at h
      subst hp
      subst h
      exact List.mem_cons_self _ _
    · simp only [alookup, hp, if_neg, if_false] at h
      exact List.mem_cons_of_mem _ (ih h)

/-! ## Claims about the overlap computation -/

/-- C1 (amended): for known source and target keys the overlap computation
is a single pass over all canonical records partitioning them by the
truthiness of their local identifiers: a record with both identifiers
present and non-empty contributes its pair to the matched dict, one with
only a present non-empty source identifier contributes to `source_only`,
one with only a present non-empty target identifier contributes to
`target_only`, and any other record (including one whose identifiers are
present but empty) contributes nothing. -/
theorem claim_C1_overlap_partition (m : Manager) (a b : String)
    (ha : a ∈ m.metaregistry) (hb : b ∈ m.metaregistry) :
    get_metaresource_external_mappings m a b = Except.ok (overlapResponse m a b) :=
  overlap_ok m a b ha hb

/-- C1 witness at a concrete manager. -/
theorem claim_C1_witness :
    get_metaresource_external_mappings MW "a" "b" = Except.ok (overlapResponse MW "a" "b") :=
  claim_C1_overlap_partition MW "a" "b" (by decide) (by decide)

/-- C1 counterexample: a record whose local identifiers under both keys are
present (the lookups return `some ""`) is skipped by the pass, so the pair
is not added to the matched mapping, contrary to the claim as stated. -/
theorem claim_C1_counterexample :
    alookup emptyIdRecord.get_mappings "a" = some "" ∧
    alookup emptyIdRecord.get_mappings "b" = some "" ∧
    get_metaresource_external_mappings M1 "a" "b" =
      Except.ok
        { meta :=
            { len_overlap := 0, source := "a", target := "b",
              len_source_only := 0, len_target_only := 0,
              source_only := [], target_only := [] }
          mappings := [] } :=
  ⟨rfl, rfl, rfl⟩

/-- C2 (amended): the self-overlap of a known key has a matched dict that is
the identity over the records exposing a non-empty local identifier under
that key, and empty source-only and target-only lists. -/
theorem claim_C2_self_overlap (m : Manager) (a : String)
    (ha : a ∈ m.metaregistry) (r : MappingResponse)
    (h : get_metaresource_external_mappings m a a = Except.ok r) :
    r.mappings = pyDict ((truthyLocals m.registry a).map (fun s => (s, s))) ∧
    (∀ p ∈ r.mappings, p.1 = p.2) ∧
    r.meta.source_only = [] ∧ r.meta.target_only = [] := by
  rw [overlap_ok m a a ha ha] at h
  injection h with h
  subst h
  refine ⟨?_, ?_, ?_, ?_⟩
  · simp [overlapResponse, matchedPairs_self]
  · intro p hp
    have hmem := mem_pyDict (by simpa [overlapResponse, matchedPairs_self] using hp)
    rcases List.mem_map.1 hmem with ⟨s, _, rfl⟩
    rfl
  · simp [overlapResponse, sourceOnlyIds_self, pySet, List.insertionSort]
  · simp [overlapResponse, targetOnlyIds_self, pySet, List.insertionSort]

/-- C2 witness at a concrete manager. -/
theorem claim_C2_witness :
    (overlapResponse MW "a" "a").mappings =
      pyDict ((truthyLocals MW.registry "a").map (fun s => (s, s))) ∧
    (∀ p ∈ (overlapResponse MW "a" "a").mappings, p.1 = p.2) ∧
    (overlapResponse MW "a" "a").meta.source_only = [] ∧
    (overlapResponse MW "a" "a").meta.target_only = [] :=
  claim_C2_self_overlap MW "a" (by decide) (overlapResponse MW "a" "a") rfl

/-- C2 counterexample: a record exposing key `a` with an empty local
identifier is absent from the matched dict of the self-overlap, so the
matched dict is not the identity over all records exposing `a`. -/
theorem claim_C2_counterexample :
    alookup emptyIdRecord.get_mappings "a" = some "" ∧
    M1.registry = [emptyIdRecord] ∧
    get_metaresource_external_mappings M1 "a" "a" =
      Except.ok
        { meta :=
            { len_overlap := 0, source := "a", target := "a",
              len_source_only := 0, len_target_only := 0,
              source_only := [], target_only := [] }
          mappings := [] } :=
  ⟨rfl, rfl, rfl⟩

/-- C3 (amended): for every pair of known keys, the source-only and
target-only lists of `overlap(a, b)` and `overlap(b, a)` swap roles
unconditionally; and when no two records contribute the same non-empty
source local identifier under `a` and no two the same target local
identifier under `b`, the matched dicts are exact inverses (pairs
swapped). -/
theorem claim_C3_overlap_symmetry (m : Manager) (a b : String)
    (ha : a ∈ m.metaregistry) (hb : b ∈ m.metaregistry)
    (r1 r2 : MappingResponse)
    (e1 : get_metaresource_external_mappings m a b = Except.ok r1)
    (e2 : get_metaresource_external_mappings m b a = Except.ok r2) :
    (((matchedPairs m.registry a b).map Prod.fst).Nodup →
      ((matchedPairs m.registry a b).map Prod.snd).Nodup →
      r2.mappings = r1.mappings.map Prod.swap) ∧
    r1.meta.source_only = r2.meta.target_only ∧
    r1.meta.target_only = r2.meta.source_only := by
  rw [overlap_ok m a b ha hb] at e1
  rw [overlap_ok m b a hb ha] at e2
  injection e1 with e1
  injection e2 with e2
  subst e1
  subst e2
  refine ⟨?_, ?_, ?_⟩
  · intro h1 h2
    show pyDict (matchedPairs m.registry b a) =
      (pyDict (matchedPairs m.registry a b)).map Prod.swap
    rw [pyDict_eq_self _ h1, matchedPairs_swap]
    apply pyDict_eq_self
    simpa [List.map_map] using h2
  · show List.insertionSort (· ≤ ·) (pySet (sourceOnlyIds m.registry a b)) =
      List.insertionSort (· ≤ ·) (pySet (targetOnlyIds m.registry b a))
    rw [sourceOnlyIds_eq_targetOnlyIds_swap]
  · show List.insertionSort (· ≤ ·) (pySet (targetOnlyIds m.registry a b)) =
      List.insertionSort (· ≤ ·) (pySet (sourceOnlyIds m.registry b a))
    rw [sourceOnlyIds_eq_targetOnlyIds_swap]

/-- C3 witness at a concrete manager. -/
theorem claim_C3_witness :
    (((matchedPairs MW.registry "a" "b").map Prod.fst).Nodup →
      ((matchedPairs MW.registry "a" "b").map Prod.snd).Nodup →
      (overlapResponse MW "b" "a").mappings =
        (overlapResponse MW "a" "b").mappings.map Prod.swap) ∧
    (overlapResponse MW "a" "b").meta.source_only =
      (overlapResponse MW "b" "a").meta.target_only ∧
    (overlapResponse MW "a" "b").meta.target_only =
      (overlapResponse MW "b" "a").meta.source_only :=
  claim_C3_overlap_symmetry MW "a" "b" (by decide) (by decide)
    (overlapResponse MW "a" "b") (overlapResponse MW "b" "a") rfl rfl

/-- C3 counterexample: two records share the source local identifier `s`
under `a`, so `overlap(a, b)` keeps only the last matched pair while
`overlap(b, a)` keeps both, and the two matched dicts are not inverses:
the inverse of the former has no entry for `t1` while the latter maps
`t1` to `s`. -/
theorem claim_C3_counterexample :
    get_metaresource_external_mappings MC3 "a" "b" =
      Except.ok
        { meta :=
            { len_overlap := 1, source := "a", target := "b",
              len_source_only := 0, len_target_only := 0,
              source_only := [], target_only := [] }
          mappings := [("s", "t2")] } ∧
    get_metaresource_external_mappings MC3 "b" "a" =
      Except.ok
        { meta :=
            { len_overlap := 2, source := "b", target := "a",
              len_source_only := 0, len_target_only := 0,
              source_only := [], target_only := [] }
          mappings := [("t1", "s"), ("t2", "s")] } ∧
    alookup [("t1", "s"), ("t2", "s")] "t1" = some "s" ∧
    alookup ([("s", "t2")].map Prod.swap) "t1" = none :=
  ⟨rfl, rfl, rfl, rfl⟩

/-- C4 (amended): when no two records expose the same non-empty local
identifier under `a`, the size of the matched dict plus the size of the
source-only set equals the number of records exposing a non-empty local
identifier under `a`. -/
theorem claim_C4_size_conservation (m : Manager) (a b : String)
    (ha : a ∈ m.metaregistry) (hb : b ∈ m.metaregistry)
    (hnd : (truthyLocals m.registry a).Nodup)
    (r : MappingResponse)
    (h : get_metaresource_external_mappings m a b = Except.ok r) :
    r.meta.len_overlap + r.meta.len_source_only = (truthyLocals m.registry a).length := by
  rw [overlap_ok m a b ha hb] at h
  injection h with h
  subst h
  show (pyDict (matchedPairs m.registry a b)).length +
    (pySet (sourceOnlyIds m.registry a b)).length = _
  rw [pyDict_eq_self _ (hnd.sublist (matchedPairs_fst_sublist m.registry a b)),
    pySet_eq_self _ (hnd.sublist (sourceOnlyIds_sublist m.registry a b))]
  exact length_partition m.registry a b

/-- C4 witness at a concrete manager. -/
theorem claim_C4_witness :
    (overlapResponse MW "a" "b").meta.len_overlap +
      (overlapResponse MW "a" "b").meta.len_source_only =
      (truthyLocals MW.registry "a").length :=
  claim_C4_size_conservation MW "a" "b" (by decide) (by decide) (by decide)
    (overlapResponse MW "a" "b") rfl

/-- C4 counterexample: two records expose the same local identifier `s`
under `a`; the matched dict and source-only set together hold one entry
while two records expose `a`, so the claimed count is violated. -/
theorem claim_C4_counterexample :
    get_metaresource_external_mappings MC3 "a" "b" =
      Except.ok
        { meta :=
            { len_overlap := 1, source := "a", target := "b",
              len_source_only := 0, len_target_only := 0,
              source_only := [], target_only := [] }
          mappings := [("s", "t2")] } ∧
    MC3.registry.countP (fun r => (alookup r.get_mappings "a").isSome) = 2 ∧
    1 + 0 ≠ 2 :=
  ⟨rfl, rfl, by decide⟩

/-- C8: every successful overlap response is internally consistent: the
`len_overlap` field equals the number of matched entries, the two length
fields equal the lengths of the corresponding lists, and both lists are
duplicate-free and sorted in strictly ascending order. -/
theorem claim_C8_response_invariants (m : Manager) (a b : String)
    (r : MappingResponse)
    (h : get_metaresource_external_mappings m a b = Except.ok r) :
    r.meta.len_overlap = r.mappings.length ∧
    r.meta.len_source_only = r.meta.source_only.length ∧
    r.meta.len_target_only = r.meta.target_only.length ∧
    r.meta.source_only.Nodup ∧ r.meta.target_only.Nodup ∧
    r.meta.source_only.Sorted (· < ·) ∧ r.meta.target_only.Sorted (· < ·) := by
  obtain ⟨ha, hb⟩ := overlap_mem_of_ok h
  rw [overlap_ok m a b ha hb] at h
  injection h with h
  subst h
  have hs1 : ((List.insertionSort (· ≤ ·) (pySet (sourceOnlyIds m.registry a b)))).Nodup :=
    ((List.perm_insertionSort _ _).nodup_iff).2 (nodup_pySet _)
  have hs2 : ((List.insertionSort (· ≤ ·) (pySet (targetOnlyIds m.registry a b)))).Nodup :=
    ((List.perm_insertionSort _ _).nodup_iff).2 (nodup_pySet _)
  refine ⟨rfl, ?_, ?_, hs1, hs2, ?_, ?_⟩
  · exact ((List.perm_insertionSort _ _).length_eq).symm
  · exact ((List.perm_insertionSort _ _).length_eq).symm
  · exact (List.sorted_insertionSort _ _).lt_of_le hs1
  · exact (List.sorted_insertionSort _ _).lt_of_le hs2

/-- C8 witness at a concrete manager. -/
theorem claim_C8_witness :
    (overlapResponse MW "a" "b").meta.len_overlap =
      (overlapResponse MW "a" "b").mappings.length ∧
    (overlapResponse MW "a" "b").meta.len_source_only =
      (overlapResponse MW "a" "b").meta.source_only.length ∧
    (overlapResponse MW "a" "b").meta.len_target_only =
      (overlapResponse MW "a" "b").meta.target_only.length ∧
    (overlapResponse MW "a" "b").meta.source_only.Nodup ∧
    (overlapResponse MW "a" "b").meta.target_only.Nodup ∧
    (overlapResponse MW "a" "b").meta.source_only.Sorted (· < ·) ∧
    (overlapResponse MW "a" "b").meta.target_only.Sorted (· < ·) :=
  claim_C8_response_invariants MW "a" "b" (overlapResponse MW "a" "b") rfl

/-! ## Claims about eager key checking and reference lookup -/

/-- C5: when the source or the target key is absent from the metaregistry,
the overlap operation and the registry-map operation fail with their
unknown-key error, and the error is the same for every registry content and
every `get_registry_map` implementation, so no partially constructed result
is ever produced. -/
theorem claim_C5_unknown_registry_key (m : Manager) (a b : String)
    (h : a ∉ m.metaregistry ∨ b ∉ m.metaregistry) :
    (∃ e, get_metaresource_external_mappings m a b = Except.error e ∧
      ∀ registry2, get_metaresource_external_mappings
        { m with registry := registry2 } a b = Except.error e) ∧
    (a ∉ m.metaregistry →
      get_metaresource_mappings m a = Except.error ("Invalid metaprefix: " ++ a) ∧
      ∀ f, get_metaresource_mappings { m with get_registry_map := f } a =
        Except.error ("Invalid metaprefix: " ++ a)) := by
  constructor
  · by_cases ha : a ∈ m.metaregistry
    · have hb : b ∉ m.metaregistry := h.resolve_left (by simpa using ha)
      exact ⟨OverlapError.badTarget b,
        by simp [get_metaresource_external_mappings, ha, hb],
        fun registry2 => by simp [get_metaresource_external_mappings, ha, hb]⟩
    · exact ⟨OverlapError.badSource a,
        by simp [get_metaresource_external_mappings, ha],
        fun registry2 => by simp [get_metaresource_external_mappings, ha]⟩
  · intro ha
    exact ⟨by simp [get_metaresource_mappings, ha],
      fun f => by simp [get_metaresource_mappings, ha]⟩

/-- C5 witness at a concrete manager and unknown key. -/
theorem claim_C5_witness :
    (∃ e, get_metaresource_external_mappings MW "zzz" "b" = Except.error e ∧
      ∀ registry2, get_metaresource_external_mappings
        { MW with registry := registry2 } "zzz" "b" = Except.error e) ∧
    ("zzz" ∉ MW.metaregistry →
      get_metaresource_mappings MW "zzz" = Except.error ("Invalid metaprefix: " ++ "zzz") ∧
      ∀ f, get_metaresource_mappings { MW with get_registry_map := f } "zzz" =
        Except.error ("Invalid metaprefix: " ++ "zzz")) :=
  claim_C5_unknown_registry_key MW "zzz" "b" (Or.inl (by decide))

/-- C6: the reference lookup succeeds with a non-empty provider mapping
exactly when the prefix resolves, the identifier validates and at least one
provider is configured, and it fails with three mutually distinct error
kinds for the three failure conditions; in particular the invalid-identifier
and no-providers conditions are never collapsed. -/
theorem claim_C6_reference_lookup (m : Manager) ( prefix_ identifier : String) :
    ((∃ r, get_reference m prefix_ identifier = Except.ok r ∧ r.providers ≠ []) ↔
      ∃ res, m.get_resource prefix_ = some res ∧
        res.is_standardizable_identifier identifier = true ∧
        m.get_providers res.prefix_ identifier ≠ []) ∧
    (m.get_resource prefix_ = none →
      get_reference m prefix_ identifier =
        Except.error (ReferenceError.prefixNotFound prefix_)) ∧
    (∀ res, m.get_resource prefix_ = some res →
      res.is_standardizable_identifier identifier = false →
      get_reference m prefix_ identifier =
        Except.error (ReferenceError.identifierInvalid prefix_ identifier)) ∧
    (∀ res, m.get_resource prefix_ = some res →
      res.is_standardizable_identifier identifier = true →
      m.get_providers res.prefix_ identifier = [] →
      get_reference m prefix_ identifier =
        Except.error (ReferenceError.noProviders prefix_ identifier)) ∧
    ReferenceError.prefixNotFound prefix_ ≠
      ReferenceError.identifierInvalid prefix_ identifier ∧
    ReferenceError.prefixNotFound prefix_ ≠
      ReferenceError.noProviders prefix_ identifier ∧
    ReferenceError.identifierInvalid prefix_ identifier ≠
      ReferenceError.noProviders prefix_ identifier := by
  refine ⟨?_, ?_, ?_, ?_, by simp, by simp, by simp⟩
  · cases hres : m.get_resource prefix_ with
    | none => simp [get_reference, hres]
    | some res =>
      cases hval : res.is_standardizable_identifier identifier with
      | false => simp [get_reference, hres, hval]
      | true =>
        by_cases hprov : m.get_providers res.prefix_ identifier = []
        · simp [get_reference, hres, hval, hprov]
        · simp [get_reference, hres, hval, hprov]
  · intro hres
    simp [get_reference, hres]
  · intro res hres hval
    simp [get_reference, hres, hval]
  · intro res hres hval hprov
    simp [get_reference, hres, hval, hprov]

/-- C6 witness: a concrete invalid identifier yields the dedicated
invalid-identifier error. -/
theorem claim_C6_witness :
    get_reference MR "go" "999" =
      Except.error (ReferenceError.identifierInvalid "go" "999") :=
  (claim_C6_reference_lookup MR "go" "999").2.2.1 goRecord rfl rfl

/-! ## Claims about content negotiation -/

/-- C7 (amended): content negotiation follows the spec's `negotiate`
function once empty strings are treated as absent: an empty accept header,
a `*/*` accept header and an empty format parameter are all treated as not
given; a non-empty unknown format parameter is an error; a conflict between
a given accept header and the mapped format parameter is an error; and
otherwise the accept header takes precedence, then the mapped format
parameter, then `application/json`.  The hypothesis `hv` records that the
format map sends query values to non-empty media types. -/
theorem claim_C7_content_negotiation (format_map : List (String × String))
    (hv : ∀ p ∈ format_map, p.2 ≠ "") (accept fmt : Option String) :
    handle_formats format_map accept fmt = negotiate format_map accept fmt := by
  cases fmt with
  | none =>
    cases accept with
    | none => rfl
    | some s =>
      by_cases hs : s = "*/*"
      · subst hs; rfl
      · by_cases hs2 : s = ""
        · subst hs2; rfl
        · simp [handle_formats, negotiate, truthy, hs, hs2]
  | some f =>
    by_cases hf : f = ""
    · subst hf
      cases accept with
      | none => rfl
      | some s =>
        by_cases hs : s = "*/*"
        · subst hs; rfl
        · by_cases hs2 : s = ""
          · subst hs2; rfl
          · simp [handle_formats, negotiate, truthy, hs, hs2]
    · cases hlk : alookup format_map f with
      | none => simp [handle_formats, negotiate, truthy, hf, hlk]
      | some v =>
        have hv2 : v ≠ "" := hv (f, v) (mem_of_alookup hlk)
        cases accept with
        | none => simp [handle_formats, negotiate, truthy, hf, hlk, hv2]
        | some s =>
          by_cases hs : s = "*/*"
          · subst hs
            simp [handle_formats, negotiate, truthy, hf, hlk, hv2]
          · by_cases hs2 : s = ""
            · subst hs2
              simp [handle_formats, negotiate, truthy, hf, hlk, hv2]
            · by_cases hsv : s = v
              · subst hsv
                simp [handle_formats, negotiate, truthy, hf, hlk, hv2, hs, hs2]
              · simp [handle_formats, negotiate, truthy, hf, hlk, hv2, hs, hs2, hsv]

/-- C7 witness at a concrete format map and matching header and parameter. -/
theorem claim_C7_witness :
    handle_formats FM7 (some "application/json") (some "json") =
      negotiate FM7 (some "application/json") (some "json") :=
  claim_C7_content_negotiation FM7 (by decide) (some "application/json") (some "json")

/-- C7 counterexample: the format parameter `""` is given and absent from
the format map, yet negotiation does not fail — it returns the default
media type because Python truthiness treats `""` as not given. -/
theorem claim_C7_counterexample :
    alookup FM7 "" = none ∧
    handle_formats FM7 none (some "") = Except.ok "application/json" :=
  ⟨rfl, rfl⟩

/-! ## Claims about JSON-LD context generation -/

theorem alookup_addPrefixEntry (m : Manager) (pm : List (String × String))
    (part p : String) :
    alookup (addPrefixEntry m pm part) p =
      if m.normalize_prefix part.trim = some p ∧ ( m.get_uri_prefix p).isSome = true
        then m.get_uri_prefix p else alookup pm p := by
  unfold addPrefixEntry
  cases hn : m.normalize_prefix part.trim with
  | none => simp [hn]
  | some q =>
    cases hu : m.get_uri_prefix q with
    | none =>
      by_cases hpq : q = p
      · subst hpq
        simp [hn, hu]
      · simp [hn, hu, hpq]
    | some w =>
      by_cases hpq : q = p
      · subst hpq
        simp [hn, hu, alookup_dictAssign]
      · simp [hn, hu, hpq, alookup_dictAssign, Ne.symm hpq]

theorem alookup_parts_foldl (m : Manager) (parts : List String) :
    ∀ pm p, alookup (parts.foldl (addPrefixEntry m) pm) p =
      if (∃ s ∈ parts, m.normalize_prefix s.trim = some p) ∧
          ( m.get_uri_prefix p).isSome = true
        then m.get_uri_prefix p else alookup pm p := by
  induction parts with
  | nil =>
    intro pm p
    simp
  | cons part parts ih =>
    intro pm p
    rw [List.foldl_cons, ih, alookup_addPrefixEntry]
    by_cases hrest : (∃ s ∈ parts, m.normalize_prefix s.trim = some p) ∧
        ( m.get_uri_prefix p).isSome = true
    · rcases hrest with ⟨⟨s, hs, hsp⟩, hu⟩
      rw [if_pos ⟨⟨s, hs, hsp⟩, hu⟩, if_pos ⟨⟨s, List.mem_cons_of_mem _ hs, hsp⟩, hu⟩]
    · by_cases hh : m.normalize_prefix part.trim = some p ∧
          ( m.get_uri_prefix p).isSome = true
      · rw [if_neg hrest, if_pos hh,
          if_pos ⟨⟨part, List.mem_cons_self _ _, hh.1⟩, hh.2⟩]
      · have hcons : ¬((∃ s ∈ part :: parts, m.normalize_prefix s.trim = some p) ∧
            ( m.get_uri_prefix p).isSome = true) := by
          rintro ⟨⟨s, hs, hsp⟩, hu⟩
          rcases List.mem_cons.1 hs with rfl | hs2
          · exact hh ⟨hsp, hu⟩
          · exact hrest ⟨⟨s, hs2, hsp⟩, hu⟩
        rw [if_neg hrest, if_neg hh, if_neg hcons]

theorem alookup_values_foldl (m : Manager) (values : List String) :
    ∀ pm p, alookup (values.foldl (fun prefix_map value =>
        (value.splitOn ",").foldl (addPrefixEntry m) prefix_map) pm) p =
      if (∃ v ∈ values, ∃ s ∈ v.splitOn ",", m.normalize_prefix s.trim = some p) ∧
          ( m.get_uri_prefix p).isSome = true
        then m.get_uri_prefix p else alookup pm p := by
  induction values with
  | nil =>
    intro pm p
    simp
  | cons value values ih =>
    intro pm p
    rw [List.foldl_cons, ih, alookup_parts_foldl]
    by_cases hrest : (∃ v ∈ values, ∃ s ∈ v.splitOn ",",
        m.normalize_prefix s.trim = some p) ∧ ( m.get_uri_prefix p).isSome = true
    · rcases hrest with ⟨⟨v, hvmem, hs⟩, hu⟩
      rw [if_pos ⟨⟨v, hvmem, hs⟩, hu⟩,
        if_pos ⟨⟨v, List.mem_cons_of_mem _ hvmem, hs⟩, hu⟩]
    · by_cases hh : (∃ s ∈ value.splitOn ",", m.normalize_prefix s.trim = some p) ∧
          ( m.get_uri_prefix p).isSome = true
      · rw [if_neg hrest, if_pos hh,
          if_pos ⟨⟨value, List.mem_cons_self _ _, hh.1⟩, hh.2⟩]
      · have hcons : ¬((∃ v ∈ value :: values, ∃ s ∈ v.splitOn ",",
            m.normalize_prefix s.trim = some p) ∧
            ( m.get_uri_prefix p).isSome = true) := by
          rintro ⟨⟨v, hvmem, hs⟩, hu⟩
          rcases List.mem_cons.1 hvmem with rfl | hv2
          · exact hh ⟨hs, hu⟩
          · exact hrest ⟨⟨v, hv2, hs⟩, hu⟩
        rw [if_neg hrest, if_neg hh, if_neg hcons]

/-- C9: the ad-hoc JSON-LD context generator never fails: its result maps
`p` to `u` exactly when some comma-separated entry of some query value
normalises (after trimming) to the canonical prefix `p` and `p` has the URI
prefix `u`; every entry that fails to normalise or has no URI prefix is
silently skipped. -/
theorem claim_C9_context_jsonld (m : Manager) (values : List String) (p u : String) :
    alookup (generate_context_json_ld m values) p = some u ↔
      ( m.get_uri_prefix p = some u ∧
        ∃ v ∈ values, ∃ s ∈ v.splitOn ",", m.normalize_prefix s.trim = some p) := by
  unfold generate_context_json_ld
  rw [alookup_values_foldl]
  by_cases hc : (∃ v ∈ values, ∃ s ∈ v.splitOn ",",
      m.normalize_prefix s.trim = some p) ∧ ( m.get_uri_prefix p).isSome = true
  · rw [if_pos hc]
    exact ⟨fun h => ⟨h, hc.1⟩, fun h => h.1⟩
  · rw [if_neg hc]
    constructor
    · intro h
      exact absurd h (by simp [alookup])
    · rintro ⟨hu, v, hvmem, s, hs, hsp⟩
      exact absurd (⟨⟨v, hvmem, s, hs, hsp⟩, by simp [hu]⟩ :
        (∃ v ∈ values, ∃ s ∈ v.splitOn ",", m.normalize_prefix s.trim = some p) ∧
          ( m.get_uri_prefix p).isSome = true) hc

/-! ## Claim about the OBO Foundry activity-status parser -/

/-- C10: the activity-status parser returns `True` exactly for `"inactive"`
and `"orphaned"`, `False` exactly for `"active"`, and raises `ValueError`
exactly for every other value. -/
theorem claim_C10_activity_status (record : OboRecord) :
    (parse_activity_status record = Except.ok true ↔
      record.activity_status = "inactive" ∨ record.activity_status = "orphaned") ∧
    (parse_activity_status record = Except.ok false ↔
      record.activity_status = "active") ∧
    ((∃ e, parse_activity_status record = Except.error e) ↔
      record.activity_status ≠ "inactive" ∧ record.activity_status ≠ "active" ∧
        record.activity_status ≠ "orphaned") := by
  unfold parse_activity_status
  by_cases h1 : record.activity_status = "inactive"
  · simp [h1]
  · by_cases h2 : record.activity_status = "active"
    · simp [h1, h2]
    · by_cases h3 : record.activity_status = "orphaned"
      · simp [h1, h2, h3]
      · simp [h1, h2, h3]

end Bioregistry
